import Mathlib

/-!
Shallow embedding of the sprite-batching render core of rustGameGDX
(`src/graphics/texture.rs`, `src/graphics/animation.rs`,
`src/graphics/sprite.rs`).

Modelling conventions:
* `f32` scalars are embedded as exact rationals (`ℚ`); the claims under
  scrutiny concern ordering, indexing and control flow, none of which
  depend on rounding.
* `u32` arithmetic is embedded as `Nat` together with checked operations
  (`u32sub`, `u32mod`, `u32mul`) that return `none` exactly where the Rust
  debug build panics (underflow, overflow, division by zero); `as u32`
  casts keep their truncation/saturation behaviour explicitly.
* A `Rc<glium::Texture2d>` handle is represented by its stable GL id
  (`Texture.id`), the value the source compares with `get_id()`.
* Rust panics (failed `assert!`, out-of-bounds indexing) are modelled by
  `Option`/dedicated constructors, and draw-target submissions by an
  outcome oracle, so error propagation can be reasoned about.
-/

namespace Game

/-- Checked `u32` subtraction: `none` exactly when the Rust debug build
panics on underflow. -/
def u32sub (a b : Nat) : Option Nat :=
  if b ≤ a then some (a - b) else none

/-- Checked `u32` remainder: `none` exactly when Rust panics on a zero
divisor. -/
def u32mod (a b : Nat) : Option Nat :=
  if b = 0 then none else some (a % b)

/-- Checked `u32` multiplication: `none` exactly when the Rust debug build
panics on overflow. -/
def u32mul (a b : Nat) : Option Nat :=
  if a * b < 2 ^ 32 then some (a * b) else none

/-- An opaque GPU texture: pixel dimensions plus the stable identity
(`GlObject::get_id`) used for batching equality. -/
structure Texture where
  id : Nat
  dimensions : Nat × Nat
deriving Repr, DecidableEq

/-- `TextureRegion` (texture.rs): a pixel sub-rectangle of a texture and
its normalized UV equivalent, both stored at construction. -/
structure TextureRegion where
  texture : Texture
  textureSize : Nat × Nat
  offset : Nat × Nat
  size : Nat × Nat
  normalizedOffset : ℚ × ℚ
  normalizedSize : ℚ × ℚ
deriving Repr, DecidableEq

namespace TextureRegion

/-- `TextureRegion::new`: full-extent region. -/
def new (texture : Texture) : TextureRegion :=
  { texture := texture
    textureSize := texture.dimensions
    offset := (0, 0)
    size := texture.dimensions
    normalizedOffset := (0, 0)
    normalizedSize := (1, 1) }

/-- `TextureRegion::with_sub_field`: sub-rectangle with normalized
offset/size precomputed as `offset / texture_size` and
`size / texture_size`. -/
def with_sub_field (texture : Texture) (offset size : Nat × Nat) :
    TextureRegion :=
  let textureSize := texture.dimensions
  { texture := texture
    textureSize := textureSize
    offset := offset
    size := size
    normalizedOffset :=
      ((offset.1 : ℚ) / (textureSize.1 : ℚ), (offset.2 : ℚ) / (textureSize.2 : ℚ))
    normalizedSize :=
      ((size.1 : ℚ) / (textureSize.1 : ℚ), (size.2 : ℚ) / (textureSize.2 : ℚ)) }

/-- `TextureRegion::split`: outer loop over rows `j < H / h`, inner loop
over columns `i < W / w`, pushing `with_sub_field` regions at offsets
`(i*w, j*h)`.  The `u32` divisions `H / h` and `W / w` panic on a zero
tile dimension, modelled by `none`. -/
def split (texture : Texture) (size : Nat × Nat) :
    Option (List TextureRegion) :=
  if size.1 = 0 ∨ size.2 = 0 then none
  else
    let textureSize := texture.dimensions
    some ((List.range (textureSize.2 / size.2)).flatMap fun j =>
      (List.range (textureSize.1 / size.1)).map fun i =>
        with_sub_field texture (i * size.1, j * size.2) size)

/-- `TextureRegion::texture_coordinates`: UV corners in the order
`[top_left, top_right, bot_left, bot_right]`, where "top" adds the
normalized height to the normalized offset. -/
def texture_coordinates (r : TextureRegion) : List (ℚ × ℚ) :=
  let top_left := (r.normalizedOffset.1, r.normalizedOffset.2 + r.normalizedSize.2)
  let top_right := (r.normalizedOffset.1 + r.normalizedSize.1,
                    r.normalizedOffset.2 + r.normalizedSize.2)
  let bot_left := (r.normalizedOffset.1, r.normalizedOffset.2)
  let bot_right := (r.normalizedOffset.1 + r.normalizedSize.1, r.normalizedOffset.2)
  [top_left, top_right, bot_left, bot_right]

end TextureRegion

/-- `PlayMode` (animation.rs). -/
inductive PlayMode where
  | Normal
  | Reversed
  | Loop
  | LoopReversed
  | LoopPingPong
deriving Repr, DecidableEq

/-- `Animation` (animation.rs). -/
structure Animation where
  frameDuration : ℚ
  animationDuration : ℚ
  keyFrames : List TextureRegion
  playMode : PlayMode

namespace Animation

/-- `Animation::new`: fails (returns `None`) when `frame_duration <= 0`,
otherwise stores `animation_duration = frame_duration * key_frames.len()`
and the `Normal` play mode. -/
def new (frameDuration : ℚ) (keyFrames : List TextureRegion) :
    Option Animation :=
  if frameDuration ≤ 0 then none
  else
    some { frameDuration := frameDuration
           animationDuration := frameDuration * (keyFrames.length : ℚ)
           keyFrames := keyFrames
           playMode := .Normal }

/-- `(run_time / self.frame_duration) as u32`: the Rust float-to-`u32`
cast saturates at `0` below and at `2^32 - 1` above. -/
def frameNumberOf (frameDuration runTime : ℚ) : Nat :=
  min (⌊runTime / frameDuration⌋.toNat) (2 ^ 32 - 1)

/-- `Animation::current_key_frame`: selects the key-frame index from the
elapsed time and the play mode, with every `u32` subtraction / remainder
and the final `Vec` indexing checked exactly where the Rust code can
panic.  `cmp::max (_, 0)` on `u32` is the identity and is kept as such. -/
def current_key_frame (a : Animation) (runTime : ℚ) : Option TextureRegion :=
  let numFrames := a.keyFrames.length % 2 ^ 32
  if numFrames = 1 then a.keyFrames[0]?
  else do
    let frameNumber := frameNumberOf a.frameDuration runTime
    let idx ← match a.playMode with
      | .Normal => do
          let m ← u32sub numFrames 1
          pure (min m frameNumber)
      | .Loop => u32mod frameNumber numFrames
      | .LoopPingPong => do
          let doubled ← u32mul numFrames 2
          let cycle ← u32sub doubled 2
          let fn ← u32mod frameNumber cycle
          if numFrames ≤ fn then do
            let t ← u32sub numFrames 2
            let d ← u32sub fn numFrames
            u32sub t d
          else pure fn
      | .Reversed => do
          let t ← u32sub numFrames frameNumber
          let t2 ← u32sub t 1
          pure (max t2 0)
      | .LoopReversed => do
          let fn ← u32mod frameNumber numFrames
          let t ← u32sub numFrames fn
          u32sub t 1
    a.keyFrames[idx]?

end Animation

/-- A 2D affine transform over ℚ, the shallow embedding of the 3×3
homogeneous matrices `glm::Mat3` used by `Sprite::get_vertex_data`
(`model * vec3(x, y, 1)` only ever reads the affine part). -/
structure Affine2 where
  m00 : ℚ
  m01 : ℚ
  m02 : ℚ
  m10 : ℚ
  m11 : ℚ
  m12 : ℚ
deriving Repr, DecidableEq

namespace Affine2

/-- Identity transform (`glm::identity`). -/
def identity : Affine2 := ⟨1, 0, 0, 0, 1, 0⟩

/-- `glm::translation2d`. -/
def translation2d (v : ℚ × ℚ) : Affine2 := ⟨1, 0, v.1, 0, 1, v.2⟩

/-- `glm::rotation2d` with the cosine and sine of the angle supplied as
exact values (the `f32` trig evaluation is external to this core). -/
def rotation2d (c s : ℚ) : Affine2 := ⟨c, -s, 0, s, c, 0⟩

/-- `glm::scaling2d`. -/
def scaling2d (v : ℚ × ℚ) : Affine2 := ⟨v.1, 0, 0, 0, v.2, 0⟩

/-- Matrix multiplication restricted to affine 2D transforms. -/
def comp (a b : Affine2) : Affine2 :=
  ⟨a.m00 * b.m00 + a.m01 * b.m10,
   a.m00 * b.m01 + a.m01 * b.m11,
   a.m00 * b.m02 + a.m01 * b.m12 + a.m02,
   a.m10 * b.m00 + a.m11 * b.m10,
   a.m10 * b.m01 + a.m11 * b.m11,
   a.m10 * b.m02 + a.m11 * b.m12 + a.m12⟩

/-- `model * glm::vec3(x, y, 1.0)`, keeping the first two coordinates. -/
def apply (a : Affine2) (v : ℚ × ℚ) : ℚ × ℚ :=
  (a.m00 * v.1 + a.m01 * v.2 + a.m02, a.m10 * v.1 + a.m11 * v.2 + a.m12)

end Affine2

/-- `VertexData` (sprite.rs): position, UV and RGBA color of one vertex. -/
structure VertexData where
  pos : ℚ × ℚ
  tex_coords : ℚ × ℚ
  color : ℚ × ℚ × ℚ × ℚ
deriving Repr, DecidableEq

/-- `Sprite` (sprite.rs): mutable transform/appearance state bound to a
texture region. -/
structure Sprite where
  texture_region : TextureRegion
  position : ℚ × ℚ
  origin : ℚ × ℚ
  rotation : ℚ
  scale : ℚ × ℚ
  color : ℚ × ℚ × ℚ × ℚ
  flip_x : Bool
  flip_y : Bool
deriving Repr, DecidableEq

namespace Sprite

/-- `Sprite::from_texture_region`: default transform state. -/
def from_texture_region (r : TextureRegion) : Sprite :=
  { texture_region := r
    position := (0, 0)
    origin := (1/2, 1/2)
    rotation := 0
    scale := (1, 1)
    color := (1, 1, 1, 1)
    flip_x := false
    flip_y := false }

/-- The `model` matrix computed at the top of `Sprite::get_vertex_data`:
`translate * rotate * scale` with the pivot-aware rotation block, the
cosine/sine of `rotation.to_radians()` supplied as `cosr`/`sinr` (only
read when `rotation ≠ 0`). -/
def model (s : Sprite) (cosr sinr : ℚ) : Affine2 :=
  let size := s.texture_region.size
  let scaled_size := ((size.1 : ℚ) * s.scale.1, (size.2 : ℚ) * s.scale.2)
  let pixel_origin := (scaled_size.1 * s.origin.1, scaled_size.2 * s.origin.2)
  let position := (s.position.1 - pixel_origin.1, s.position.2 - pixel_origin.2)
  let translate := Affine2.translation2d position
  let rotate :=
    if s.rotation ≠ 0 then
      (Affine2.translation2d pixel_origin).comp
        ((Affine2.rotation2d cosr sinr).comp
          (Affine2.translation2d (-pixel_origin.1, -pixel_origin.2)))
    else Affine2.identity
  let scale := Affine2.scaling2d scaled_size
  translate.comp (rotate.comp scale)

/-- `Sprite::get_vertex_data`.  The local names mirror the source; note
the source maps the unit-quad corner `(1,0)` to its `pos_bottom_left`
variable and `(0,0)` to `pos_bottom_right`, and pairs the output's third
vertex with `tex_bottom_right` and the fourth with `tex_bottom_left`. -/
def get_vertex_data (s : Sprite) (cosr sinr : ℚ) : List VertexData :=
  let model := s.model cosr sinr
  let tex_coords := s.texture_region.texture_coordinates
  let tex_top_left := tex_coords[0]!
  let tex_top_right := tex_coords[1]!
  let tex_bottom_left := tex_coords[2]!
  let tex_bottom_right := tex_coords[3]!
  let (tex_top_left, tex_top_right, tex_bottom_left, tex_bottom_right) :=
    match s.flip_x, s.flip_y with
    | false, false => (tex_top_left, tex_top_right, tex_bottom_left, tex_bottom_right)
    | true, false => (tex_top_right, tex_top_left, tex_bottom_right, tex_bottom_left)
    | false, true => (tex_bottom_left, tex_bottom_right, tex_top_left, tex_top_right)
    | true, true => (tex_bottom_right, tex_bottom_left, tex_top_right, tex_top_left)
  let pos_top_left := model.apply (0, 1)
  let pos_top_right := model.apply (1, 1)
  let pos_bottom_left := model.apply (1, 0)
  let pos_bottom_right := model.apply (0, 0)
  [ { pos := pos_top_left, tex_coords := tex_top_left, color := s.color },
    { pos := pos_top_right, tex_coords := tex_top_right, color := s.color },
    { pos := pos_bottom_left, tex_coords := tex_bottom_right, color := s.color },
    { pos := pos_bottom_right, tex_coords := tex_bottom_left, color := s.color } ]

end Sprite

/-- `QUAD_VERTEX_SIZE` (sprite.rs). -/
def QUAD_VERTEX_SIZE : Nat := 4

/-- `BATCH_SIZE` (sprite.rs): quad capacity of one batch. -/
def BATCH_SIZE : Nat := 1024

/-- `SpriteQueue` (sprite.rs): staging vertices and the parallel
texture-handle list for one batch. -/
structure SpriteQueue where
  vertices : List VertexData
  textures : List Texture
deriving Repr, DecidableEq

namespace SpriteQueue

/-- `SpriteQueue::new`. -/
def new : SpriteQueue := ⟨[], []⟩

/-- `SpriteQueue::push`: `assert!(textures.len() < BATCH_SIZE)` (a panic,
modelled by `none`), then append the 4-vertex slice and the handle. -/
def push (q : SpriteQueue) (vertices : List VertexData) (texture : Texture) :
    Option SpriteQueue :=
  if q.textures.length < BATCH_SIZE then
    some ⟨q.vertices ++ vertices, q.textures ++ [texture]⟩
  else none

/-- `SpriteQueue::clear`. -/
def clear (_q : SpriteQueue) : SpriteQueue := ⟨[], []⟩

/-- `SpriteQueue::len` (counts quads via the texture list). -/
def len (q : SpriteQueue) : Nat := q.textures.length

/-- The queue invariant stated by the spec: vertex count = 4 × handle
count. -/
def inv (q : SpriteQueue) : Prop :=
  q.vertices.length = QUAD_VERTEX_SIZE * q.textures.length

instance (q : SpriteQueue) : Decidable q.inv := by
  unfold inv; infer_instance

end SpriteQueue

/-- The mutable state of a live `SpriteBatch`: the renderer's sprite
queue and the accumulated `draw_calls` counter. -/
structure SpriteBatch where
  queue : SpriteQueue
  draw_calls : Nat
deriving Repr, DecidableEq

/-- Outcome of `flush`/`draw` (`Result<(), DrawError>` in the source):
success, a propagated draw-target error (the `&mut self` state mutated so
far is kept), or a Rust panic. -/
inductive BatchOut where
  | ok (b : SpriteBatch)
  | err (b : SpriteBatch)
  | panic
deriving Repr, DecidableEq

/-- Outcome of `finish` (`Result<u32, DrawError>`). -/
inductive FinishOut where
  | ok (count : Nat) (b : SpriteBatch)
  | err (b : SpriteBatch)
  | panic
deriving Repr, DecidableEq

/-- The scan loop of `SpriteBatch::flush` over `textures[1..]`:
`render_texture` is the current run's handle, `offset`/`i` the quad
range bounds of the current run, `k` counts the submissions issued in
this flush (fed to the outcome `oracle`; `true` = the draw target
returned `Ok`).  After the loop one final submission covers the last
run, then the queue is cleared.  On an `Err` the `?` operator returns
with the queue intact and `draw_calls` counting only the submissions
that succeeded. -/
def flushLoop (q : SpriteQueue) (draw_calls : Nat) (oracle : Nat → Bool)
    (k : Nat) (render_texture : Texture) (offset i : Nat) :
    List Texture → BatchOut
  | [] =>
      if oracle k then .ok ⟨q.clear, draw_calls + 1⟩
      else .err ⟨q, draw_calls⟩
  | t :: rest =>
      if t.id ≠ render_texture.id then
        if oracle k then
          flushLoop q (draw_calls + 1) oracle (k + 1) t i (i + 1) rest
        else .err ⟨q, draw_calls⟩
      else flushLoop q draw_calls oracle k render_texture offset (i + 1) rest

namespace SpriteBatch

/-- `SpriteBatch::new` as reached from `SpriteRenderer::begin_batch`:
clears the renderer's queue and starts with `draw_calls = 0`. -/
def new (renderer_queue : SpriteQueue) : SpriteBatch :=
  ⟨renderer_queue.clear, 0⟩

/-- `SpriteBatch::flush`: no-op on an empty vertex list, otherwise
`textures[0]` seeds the run scan (a panic if the parallel list were
empty — unreachable under the queue invariant). -/
def flush (b : SpriteBatch) (oracle : Nat → Bool) : BatchOut :=
  if b.queue.vertices.isEmpty then .ok b
  else
    match b.queue.textures with
    | [] => .panic
    | t0 :: rest => flushLoop b.queue b.draw_calls oracle 0 t0 0 1 rest

/-- `SpriteBatch::draw`: flush first when the queue is at `BATCH_SIZE`,
then compute the sprite's vertex data and push it with a clone of the
sprite's texture handle. -/
def draw (b : SpriteBatch) (oracle : Nat → Bool) (sprite : Sprite)
    (cosr sinr : ℚ) : BatchOut :=
  let step : SpriteBatch → BatchOut := fun b' =>
    let vertices := sprite.get_vertex_data cosr sinr
    match b'.queue.push vertices sprite.texture_region.texture with
    | some q' => .ok ⟨q', b'.draw_calls⟩
    | none => .panic
  if b.queue.len = BATCH_SIZE then
    match b.flush oracle with
    | .ok b' => step b'
    | .err b' => .err b'
    | .panic => .panic
  else step b

/-- `SpriteBatch::finish`: a final flush, then return `draw_calls`. -/
def finish (b : SpriteBatch) (oracle : Nat → Bool) : FinishOut :=
  match b.flush oracle with
  | .ok b' => .ok b'.draw_calls b'
  | .err b' => .err b'
  | .panic => .panic

/-- Drawing a sequence of sprites (each with the cosine/sine of its
rotation) through `draw`, stopping at the first error or panic. -/
def drawAll (b : SpriteBatch) (oracle : Nat → Bool) :
    List (Sprite × ℚ × ℚ) → BatchOut
  | [] => .ok b
  | (s, c, sn) :: rest =>
      match b.draw oracle s c sn with
      | .ok b' => drawAll b' oracle rest
      | .err b' => .err b'
      | .panic => .panic

end SpriteBatch

/-- The all-success draw target: every submission returns `Ok`. -/
def successOracle : Nat → Bool := fun _ => true

/-- Spec-side: boundaries after a leading element with id `t` — the
number of adjacent pairs with different texture ids. -/
def idChanges (t : Nat) : List Nat → Nat
  | [] => 0
  | u :: rest => (if u ≠ t then 1 else 0) + idChanges u rest

/-- Spec-side: number of maximal contiguous runs of equal texture ids. -/
def numRuns : List Nat → Nat
  | [] => 0
  | t :: rest => idChanges t rest + 1

/-- Spec-side: the LoopPingPong mapping as the spec words it — a cycle
of length `2n-2`, the identity on the forward half `0..n-1`, and
`2n-2-r` on the backward half `n..2n-3` (which runs `n-2` down to 1). -/
def pingPongIndex (n fn : Nat) : Nat :=
  let r := fn % (2 * n - 2)
  if r < n then r else 2 * n - 2 - r

/-- Spec-side: partition a list into consecutive chunks of size `c`
(the last chunk may be shorter); meaningful for `c ≥ 1`. -/
def chunksOf (c : Nat) : List α → List (List α)
  | [] => []
  | a :: l => (a :: l.take (c - 1)) :: chunksOf c (l.drop (c - 1))
termination_by l => l.length
decreasing_by
  simp only [List.length_cons, List.length_drop]
  omega

/-- One whole batch session: `begin_batch` (clearing the renderer's
queue), a sequence of `draw` calls, then `finish`. -/
def SpriteBatch.drawAllFinish (b : SpriteBatch) (oracle : Nat → Bool)
    (l : List (Sprite × ℚ × ℚ)) : FinishOut :=
  match b.drawAll oracle l with
  | .ok b' => b'.finish oracle
  | .err b' => .err b'
  | .panic => .panic

/-- Run a fresh batch over a sprite sequence against the renderer's
current queue `q0`. -/
def SpriteBatch.run (q0 : SpriteQueue) (oracle : Nat → Bool)
    (l : List (Sprite × ℚ × ℚ)) : FinishOut :=
  (SpriteBatch.new q0).drawAllFinish oracle l

/-! Concrete inputs used by the closed-form evaluations below. -/

/-- A 1×1 texture. -/
def unitTexture : Texture := ⟨3, (1, 1)⟩

/-- A default sprite over the full extent of `unitTexture`. -/
def unitSprite : Sprite := Sprite.from_texture_region (TextureRegion.new unitTexture)

/-- A default sprite over the full extent of a fresh 1×1 texture with the
given id. -/
def spriteOf (id : Nat) : Sprite :=
  Sprite.from_texture_region (TextureRegion.new ⟨id, (1, 1)⟩)

/-- A concrete two-quad queue over two distinct textures, satisfying the
queue invariant. -/
def demoQueue : SpriteQueue :=
  ⟨(spriteOf 0).get_vertex_data 1 0 ++ (spriteOf 1).get_vertex_data 1 0,
   [⟨0, (1, 1)⟩, ⟨1, (1, 1)⟩]⟩

/-- A 2×1 texture holding two 1×1 frames. -/
def stripTexture : Texture := ⟨5, (2, 1)⟩

/-- The two 1×1 frames of `stripTexture`. -/
def stripFrames : List TextureRegion :=
  [TextureRegion.with_sub_field stripTexture (0, 0) (1, 1),
   TextureRegion.with_sub_field stripTexture (1, 0) (1, 1)]

/-- A two-frame animation with `frame_duration = 1` in `Reversed` play
mode (constructed by `Animation::new`, then `play_mode` assigned). -/
def reversedAnimation : Animation :=
  { frameDuration := 1
    animationDuration := 1 * (stripFrames.length : ℚ)
    keyFrames := stripFrames
    playMode := .Reversed }

/-- A 4×1 texture holding four 1×1 frames. -/
def pingTexture : Texture := ⟨7, (4, 1)⟩

/-- The four 1×1 frames of `pingTexture`. -/
def pingFrames : List TextureRegion :=
  [TextureRegion.with_sub_field pingTexture (0, 0) (1, 1),
   TextureRegion.with_sub_field pingTexture (1, 0) (1, 1),
   TextureRegion.with_sub_field pingTexture (2, 0) (1, 1),
   TextureRegion.with_sub_field pingTexture (3, 0) (1, 1)]

/-- A four-frame animation with `frame_duration = 0.1` in `LoopPingPong`
play mode. -/
def pingAnimation : Animation :=
  { frameDuration := 1 / 10
    animationDuration := 1 / 10 * (pingFrames.length : ℚ)
    keyFrames := pingFrames
    playMode := .LoopPingPong }

/-!  ## Theorems  -/

/-- Claim C8: animation construction fails exactly when
`frame_duration ≤ 0` — `Animation::new` returns `None` then and never
clamps — and for a positive duration it returns an animation with
`animation_duration = frame_duration × frame_count`. -/
theorem C8_new_fails_iff_nonpositive_duration
    (d : ℚ) (frames : List TextureRegion) :
    (Animation.new d frames = none ↔ d ≤ 0) ∧
    (0 < d → ∃ a, Animation.new d frames = some a ∧
      a.frameDuration = d ∧
      a.animationDuration = d * (frames.length : ℚ) ∧
      a.keyFrames = frames) := by
  constructor
  · by_cases hd : d ≤ 0 <;> simp [Animation.new, hd]
  · intro hd
    exact ⟨{ frameDuration := d, animationDuration := d * (frames.length : ℚ),
             keyFrames := frames, playMode := .Normal },
           by simp [Animation.new, not_le.mpr hd], rfl, rfl, rfl⟩

/-- Witness for C8 at `frame_duration = 1` and an empty frame list. -/
theorem C8_new_witness :
    ∃ a, Animation.new (1 : ℚ) [] = some a ∧ a.frameDuration = 1 ∧
      a.animationDuration = 1 * (([] : List TextureRegion).length : ℚ) ∧
      a.keyFrames = [] :=
  (C8_new_fails_iff_nonpositive_duration 1 []).2 (by norm_num)

/-- Claim C3 (evaluating the code at the failing input): the `Reversed`
play mode follows `n-1-frameNumber` only while `frameNumber < n`; at
`run_time = 2` on a two-frame animation with `frame_duration = 1`
(`frameNumber = 2 ≥ n = 2`) the `u32` expression
`num_frames - frame_number - 1` underflows — a Rust panic, modelled
`none` — instead of the claimed clamped result, frame 0. -/
theorem C3_reversed_underflows_past_end :
    reversedAnimation.current_key_frame 0 = stripFrames[1]? ∧
    reversedAnimation.current_key_frame 1 = stripFrames[0]? ∧
    reversedAnimation.current_key_frame 2 = none := by
  have e0 : Animation.frameNumberOf 1 0 = 0 := by
    unfold Animation.frameNumberOf
    rw [show ⌊(0 : ℚ) / 1⌋ = 0 by norm_num]
    decide
  have e1 : Animation.frameNumberOf 1 1 = 1 := by
    unfold Animation.frameNumberOf
    rw [show ⌊(1 : ℚ) / 1⌋ = 1 by norm_num]
    decide
  have e2 : Animation.frameNumberOf 1 2 = 2 := by
    unfold Animation.frameNumberOf
    rw [show ⌊(2 : ℚ) / 1⌋ = 2 by norm_num]
    decide
  refine ⟨?_, ?_, ?_⟩ <;>
    simp [Animation.current_key_frame, reversedAnimation, stripFrames,
      e0, e1, e2, u32sub]

/-- Claim C10: `Animation::new` does not require a non-empty frame list —
it succeeds on `[]` for every positive duration — and on the resulting
0-frame animation `current_key_frame` panics (`none`) for every play
mode and run time. -/
theorem C10_empty_frames_unchecked (d : ℚ) (hd : 0 < d) (mode : PlayMode)
    (runTime : ℚ) :
    ∃ a, Animation.new d [] = some a ∧
      ({ a with playMode := mode }).current_key_frame runTime = none := by
  refine ⟨{ frameDuration := d,
            animationDuration := d * (([] : List TextureRegion).length : ℚ),
            keyFrames := [], playMode := .Normal }, ?_, ?_⟩
  · simp [Animation.new, not_le.mpr hd]
  · cases mode <;>
      simp [Animation.current_key_frame, u32sub, u32mod, u32mul]

/-- The `LoopPingPong` arm of `current_key_frame` computed in closed
form: for `n ≥ 2` frames the index is `pingPongIndex n frameNumber`. -/
theorem currentKeyFrame_loopPingPong (a : Animation)
    (hmode : a.playMode = .LoopPingPong)
    (hn : 2 ≤ a.keyFrames.length) (hbound : a.keyFrames.length * 2 < 2 ^ 32)
    (runTime : ℚ) :
    a.current_key_frame runTime =
      a.keyFrames[pingPongIndex a.keyFrames.length
        (Animation.frameNumberOf a.frameDuration runTime)]? := by
  have hlt : a.keyFrames.length < 2 ^ 32 := by omega
  have hcyc : 0 < a.keyFrames.length * 2 - 2 := by omega
  unfold Animation.current_key_frame
  rw [hmode]
  simp only [Nat.mod_eq_of_lt hlt]
  rw [if_neg (by omega : ¬ a.keyFrames.length = 1)]
  rw [show u32mul a.keyFrames.length 2 = some (a.keyFrames.length * 2) by
        unfold u32mul; exact if_pos hbound]
  simp only [Option.bind_eq_bind, Option.some_bind]
  rw [show u32sub (a.keyFrames.length * 2) 2 = some (a.keyFrames.length * 2 - 2) by
        unfold u32sub; exact if_pos (by omega)]
  simp only [Option.some_bind]
  set fn := Animation.frameNumberOf a.frameDuration runTime with hfn
  rw [show u32mod fn (a.keyFrames.length * 2 - 2) =
        some (fn % (a.keyFrames.length * 2 - 2)) by
        unfold u32mod; exact if_neg (by omega)]
  simp only [Option.some_bind]
  have hr : fn % (a.keyFrames.length * 2 - 2) < a.keyFrames.length * 2 - 2 :=
    Nat.mod_lt _ hcyc
  set r := fn % (a.keyFrames.length * 2 - 2) with hrdef
  by_cases hcase : a.keyFrames.length ≤ r
  · rw [if_pos hcase]
    rw [show u32sub a.keyFrames.length 2 = some (a.keyFrames.length - 2) by
          unfold u32sub; exact if_pos (by omega)]
    simp only [Option.some_bind]
    rw [show u32sub r a.keyFrames.length = some (r - a.keyFrames.length) by
          unfold u32sub; exact if_pos hcase]
    simp only [Option.some_bind]
    rw [show u32sub (a.keyFrames.length - 2) (r - a.keyFrames.length) =
          some (a.keyFrames.length - 2 - (r - a.keyFrames.length)) by
          unfold u32sub; exact if_pos (by omega)]
    simp only [Option.some_bind]
    rw [show a.keyFrames.length - 2 - (r - a.keyFrames.length) =
          pingPongIndex a.keyFrames.length fn by
          simp only [pingPongIndex]
          rw [Nat.mul_comm 2 a.keyFrames.length, ← hrdef, if_neg (by omega)]
          omega]
  · rw [if_neg hcase]
    simp only [Option.pure_def, Option.some_bind]
    rw [show r = pingPongIndex a.keyFrames.length fn by
          simp only [pingPongIndex]
          rw [Nat.mul_comm 2 a.keyFrames.length, ← hrdef, if_pos (by omega)]]

/-- Claim C5: under `LoopPingPong` with `n ≥ 2` frames the frame index is
computed over a cycle of length `2n-2` — the forward half `0..n-1` is the
identity, the backward half maps `r` to `2n-2-r`, i.e. `n-2..1` — and the
concrete 4-frame animation with `frame_duration = 0.1` sampled at
0.0, 0.1, 0.2, 0.3, 0.4, 0.5 yields frame indices [0, 1, 2, 3, 2, 1]. -/
theorem C5_loop_ping_pong (a : Animation) (hmode : a.playMode = .LoopPingPong)
    (hn : 2 ≤ a.keyFrames.length) (hbound : a.keyFrames.length * 2 < 2 ^ 32)
    (runTime : ℚ) :
    a.current_key_frame runTime =
      a.keyFrames[pingPongIndex a.keyFrames.length
        (Animation.frameNumberOf a.frameDuration runTime)]? ∧
    ([0, 1/10, 2/10, 3/10, 4/10, 5/10].map pingAnimation.current_key_frame =
      [pingFrames[0]?, pingFrames[1]?, pingFrames[2]?, pingFrames[3]?,
       pingFrames[2]?, pingFrames[1]?]) := by
  refine ⟨currentKeyFrame_loopPingPong a hmode hn hbound runTime, ?_⟩
  have e0 : Animation.frameNumberOf (1/10) 0 = 0 := by
    unfold Animation.frameNumberOf
    rw [show ⌊(0 : ℚ) / (1/10)⌋ = 0 by norm_num]
    decide
  have e1 : Animation.frameNumberOf (1/10) (1/10) = 1 := by
    unfold Animation.frameNumberOf
    rw [show ⌊(1/10 : ℚ) / (1/10)⌋ = 1 by norm_num]
    decide
  have e2 : Animation.frameNumberOf (1/10) (2/10) = 2 := by
    unfold Animation.frameNumberOf
    rw [show ⌊(2/10 : ℚ) / (1/10)⌋ = 2 by norm_num]
    decide
  have e3 : Animation.frameNumberOf (1/10) (3/10) = 3 := by
    unfold Animation.frameNumberOf
    rw [show ⌊(3/10 : ℚ) / (1/10)⌋ = 3 by norm_num]
    decide
  have e4 : Animation.frameNumberOf (1/10) (4/10) = 4 := by
    unfold Animation.frameNumberOf
    rw [show ⌊(4/10 : ℚ) / (1/10)⌋ = 4 by norm_num]
    decide
  have e5 : Animation.frameNumberOf (1/10) (5/10) = 5 := by
    unfold Animation.frameNumberOf
    rw [show ⌊(5/10 : ℚ) / (1/10)⌋ = 5 by norm_num]
    decide
  have hkey : ∀ rt : ℚ, pingAnimation.current_key_frame rt =
      pingFrames[pingPongIndex 4 (Animation.frameNumberOf (1/10) rt)]? := by
    intro rt
    have h := currentKeyFrame_loopPingPong pingAnimation rfl (by decide)
      (by decide) rt
    rw [show pingAnimation.keyFrames.length = 4 from rfl,
        show pingAnimation.keyFrames = pingFrames from rfl,
        show pingAnimation.frameDuration = 1/10 from rfl] at h
    exact h
  simp only [List.map_cons, List.map_nil, hkey, e0, e1, e2, e3, e4, e5]
  rw [show pingPongIndex 4 0 = 0 from by decide,
      show pingPongIndex 4 1 = 1 from by decide,
      show pingPongIndex 4 2 = 2 from by decide,
      show pingPongIndex 4 3 = 3 from by decide,
      show pingPongIndex 4 4 = 2 from by decide,
      show pingPongIndex 4 5 = 1 from by decide]

/-- Witness for C5 at the concrete 4-frame ping-pong animation sampled at
`run_time = 0.4`. -/
theorem C5_loop_ping_pong_witness :
    pingAnimation.current_key_frame (4/10) =
      pingAnimation.keyFrames[pingPongIndex pingAnimation.keyFrames.length
        (Animation.frameNumberOf pingAnimation.frameDuration (4/10))]? ∧
    ([0, 1/10, 2/10, 3/10, 4/10, 5/10].map pingAnimation.current_key_frame =
      [pingFrames[0]?, pingFrames[1]?, pingFrames[2]?, pingFrames[3]?,
       pingFrames[2]?, pingFrames[1]?]) :=
  C5_loop_ping_pong pingAnimation rfl (by decide) (by decide) (4/10)

/-- Length of a rectangular list comprehension: `n` rows of `m` entries. -/
theorem length_range_flatMap_map {α : Type} (n m : Nat) (f : Nat → Nat → α) :
    ((List.range n).flatMap fun j => (List.range m).map (f j)).length = n * m := by
  induction n with
  | zero => simp
  | succ p ih =>
      rw [List.range_succ, List.flatMap_append]
      simp only [List.length_append, ih, List.flatMap_cons, List.flatMap_nil,
        List.append_nil, List.length_map, List.length_range]
      ring

/-- Element `k` of a rectangular list comprehension is `f (k / m) (k % m)`:
row-major order. -/
theorem getElem?_range_flatMap_map {α : Type} (n m : Nat) (f : Nat → Nat → α)
    (k : Nat) (hk : k < n * m) :
    ((List.range n).flatMap fun j => (List.range m).map (f j))[k]? =
      some (f (k / m) (k % m)) := by
  induction n generalizing k with
  | zero => omega
  | succ p ih =>
      rw [List.range_succ, List.flatMap_append]
      rw [Nat.succ_mul] at hk
      rw [List.getElem?_append, length_range_flatMap_map]
      by_cases h : k < p * m
      · rw [if_pos h]
        exact ih k h
      · have hm : 0 < m := by omega
        have hr : k - p * m < m := by omega
        rw [if_neg h]
        simp only [List.flatMap_cons, List.flatMap_nil, List.append_nil]
        rw [List.getElem?_map, List.getElem?_range hr]
        have hdiv : k / m = p := by
          have hcomm : m * p = p * m := Nat.mul_comm m p
          have h1 := Nat.mod_add_div k m
          have h2 := Nat.mod_lt k hm
          rcases Nat.lt_trichotomy (k / m) p with hlt | heq | hgt
          · exfalso
            have : m * (k / m) + m ≤ m * p := by
              calc m * (k / m) + m = m * (k / m + 1) := by ring
              _ ≤ m * p := Nat.mul_le_mul_left m hlt
            omega
          · exact heq
          · exfalso
            have : m * p + m ≤ m * (k / m) := by
              calc m * p + m = m * (p + 1) := by ring
              _ ≤ m * (k / m) := Nat.mul_le_mul_left m hgt
            omega
        have hmod : k % m = k - p * m := by
          have hcomm : m * p = p * m := Nat.mul_comm m p
          have h1 := Nat.mod_add_div k m
          rw [hdiv] at h1
          omega
        rw [hdiv, hmod]
        rfl

/-- Claim C6: for positive tile dimensions `w, h`, `TextureRegion::split`
returns `(W/w) × (H/h)` regions in row-major order (rows outer, columns
inner): the region at index `k` is the `with_sub_field` region at pixel
offset `((k mod (W/w))·w, (k div (W/w))·h)` with pixel size `(w, h)`. -/
theorem C6_split_row_major (texture : Texture) (w h : Nat)
    (hw : 0 < w) (hh : 0 < h) :
    ∃ l, TextureRegion.split texture (w, h) = some l ∧
      l.length = (texture.dimensions.1 / w) * (texture.dimensions.2 / h) ∧
      ∀ k, k < (texture.dimensions.1 / w) * (texture.dimensions.2 / h) →
        ∃ r, l[k]? = some r ∧
          r = TextureRegion.with_sub_field texture
            ((k % (texture.dimensions.1 / w)) * w,
             (k / (texture.dimensions.1 / w)) * h) (w, h) ∧
          r.offset = ((k % (texture.dimensions.1 / w)) * w,
                      (k / (texture.dimensions.1 / w)) * h) ∧
          r.size = (w, h) := by
  unfold TextureRegion.split
  rw [if_neg (by simp; omega)]
  refine ⟨_, rfl, ?_, ?_⟩
  · rw [length_range_flatMap_map]
    ring
  · intro k hk
    refine ⟨_, getElem?_range_flatMap_map _ _ _ k (by rw [Nat.mul_comm]; exact hk),
            rfl, rfl, rfl⟩

/-- Witness for C6: a 256×128 texture split into 64×64 tiles yields 8
regions; index 0 sits at offset (0,0), index 1 at (64,0), index 4 at
(0,64). -/
theorem C6_split_row_major_witness :
    ∃ l, TextureRegion.split ⟨9, (256, 128)⟩ (64, 64) = some l ∧
      l.length = 8 ∧
      (∃ r, l[0]? = some r ∧ r.offset = (0, 0) ∧ r.size = (64, 64)) ∧
      (∃ r, l[1]? = some r ∧ r.offset = (64, 0) ∧ r.size = (64, 64)) ∧
      (∃ r, l[4]? = some r ∧ r.offset = (0, 64) ∧ r.size = (64, 64)) := by
  obtain ⟨l, hl, hlen, hidx⟩ :=
    C6_split_row_major ⟨9, (256, 128)⟩ 64 64 (by decide) (by decide)
  obtain ⟨r0, h0, _, h0off, h0sz⟩ := hidx 0 (by decide)
  obtain ⟨r1, h1, _, h1off, h1sz⟩ := hidx 1 (by decide)
  obtain ⟨r4, h4, _, h4off, h4sz⟩ := hidx 4 (by decide)
  exact ⟨l, hl, by simpa using hlen,
    ⟨r0, h0, by simpa using h0off, h0sz⟩,
    ⟨r1, h1, by simpa using h1off, h1sz⟩,
    ⟨r4, h4, by simpa using h4off, h4sz⟩⟩

/-- `get_vertex_data` always yields exactly 4 vertices (the `[VertexData; 4]`
array type of the source). -/
theorem get_vertex_data_length (s : Sprite) (c sn : ℚ) :
    (s.get_vertex_data c sn).length = 4 := by
  unfold Sprite.get_vertex_data
  cases s.flip_x <;> cases s.flip_y <;> rfl

/-- Clearing any queue yields the fresh empty queue. -/
theorem clear_eq_new (q : SpriteQueue) : q.clear = SpriteQueue.new := rfl

/-- The flush scan either succeeds — clearing the queue — or propagates a
draw error leaving the queue untouched. -/
theorem flushLoop_shape (rest : List Texture) : ∀ (q : SpriteQueue) (dc : Nat)
    (oracle : Nat → Bool) (k : Nat) (rt : Texture) (off i : Nat),
    (∃ dc', flushLoop q dc oracle k rt off i rest = .ok ⟨q.clear, dc'⟩) ∨
    (∃ dc', flushLoop q dc oracle k rt off i rest = .err ⟨q, dc'⟩) := by
  induction rest with
  | nil =>
      intro q dc oracle k rt off i
      unfold flushLoop
      by_cases h : oracle k = true
      · exact .inl ⟨dc + 1, by rw [if_pos h]⟩
      · exact .inr ⟨dc, by rw [if_neg h]⟩
  | cons t rest ih =>
      intro q dc oracle k rt off i
      unfold flushLoop
      by_cases hid : t.id ≠ rt.id
      · rw [if_pos hid]
        by_cases h : oracle k = true
        · rw [if_pos h]
          exact ih q (dc + 1) oracle (k + 1) t i (i + 1)
        · exact .inr ⟨dc, by rw [if_neg h]⟩
      · rw [if_neg hid]
        exact ih q dc oracle k rt off (i + 1)

/-- With an all-success target, the flush scan issues one submission per
maximal same-id run (`idChanges + 1`) and clears the queue. -/
theorem flushLoop_success (rest : List Texture) : ∀ (q : SpriteQueue)
    (dc k : Nat) (rt : Texture) (off i : Nat),
    flushLoop q dc successOracle k rt off i rest =
      .ok ⟨q.clear, dc + (idChanges rt.id (rest.map Texture.id) + 1)⟩ := by
  induction rest with
  | nil =>
      intro q dc k rt off i
      unfold flushLoop
      rw [if_pos (show successOracle k = true from rfl)]
      rfl
  | cons t rest ih =>
      intro q dc k rt off i
      unfold flushLoop
      by_cases hid : t.id ≠ rt.id
      · rw [if_pos hid, if_pos (show successOracle k = true from rfl), ih]
        have hch : idChanges rt.id ((t :: rest).map Texture.id) =
            1 + idChanges t.id (rest.map Texture.id) := by
          simp [idChanges, hid]
        rw [hch]
        exact congrArg (fun n => BatchOut.ok ⟨q.clear, n⟩) (by omega)
      · rw [if_neg hid, ih]
        have hid' : t.id = rt.id := by omega
        have hch : idChanges rt.id ((t :: rest).map Texture.id) =
            idChanges t.id (rest.map Texture.id) := by
          simp [idChanges, hid']
        rw [hch, hid']

/-- With a target failing at submission `kfail`, the flush scan stops
there: the error escapes, the queue is untouched, and `draw_calls`
counts exactly the `kfail` earlier successful submissions. -/
theorem flushLoop_failAt (kfail : Nat) (rest : List Texture) :
    ∀ (q : SpriteQueue) (dc j : Nat) (rt : Texture) (off i : Nat),
    j ≤ kfail → kfail - j ≤ idChanges rt.id (rest.map Texture.id) →
    flushLoop q dc (fun x => decide (x < kfail)) j rt off i rest =
      .err ⟨q, dc + (kfail - j)⟩ := by
  induction rest with
  | nil =>
      intro q dc j rt off i hj hch
      unfold flushLoop
      have hje : j = kfail := by simp [idChanges] at hch; omega
      rw [if_neg (by simp [hje])]
      rw [show kfail - j = 0 by omega]
      rfl
  | cons t rest ih =>
      intro q dc j rt off i hj hch
      unfold flushLoop
      by_cases hid : t.id ≠ rt.id
      · rw [if_pos hid]
        have hch' : idChanges rt.id ((t :: rest).map Texture.id) =
            1 + idChanges t.id (rest.map Texture.id) := by
          simp [idChanges, hid]
        by_cases hjk : j < kfail
        · rw [if_pos (by simpa using hjk)]
          rw [ih q (dc + 1) (j + 1) t i (i + 1) (by omega) (by rw [hch'] at hch; omega)]
          exact congrArg (fun n => BatchOut.err ⟨q, n⟩) (by omega)
        · have hje : j = kfail := by omega
          rw [if_neg (by simp [hje])]
          rw [show kfail - j = 0 by omega]
          rfl
      · rw [if_neg hid]
        have hid' : t.id = rt.id := by omega
        have hch' : idChanges rt.id ((t :: rest).map Texture.id) =
            idChanges rt.id (rest.map Texture.id) := by
          simp [idChanges, hid']
        exact ih q dc j rt off (i + 1) hj (by rw [hch'] at hch; exact hch)

/-- `flush` has exactly three reachable outcomes: a no-op success on an
empty vertex list, a success that clears the queue, or a propagated error
that leaves the queue untouched (the `textures[0]` panic needs a vertex
list that is non-empty while the texture list is empty). -/
theorem flush_shape (b : SpriteBatch) (oracle : Nat → Bool) :
    (b.queue.vertices.isEmpty = true ∧ b.flush oracle = .ok b) ∨
    (b.queue.vertices.isEmpty = false ∧ b.queue.textures = [] ∧
      b.flush oracle = .panic) ∨
    (b.queue.vertices.isEmpty = false ∧ b.queue.textures ≠ [] ∧
      ((∃ dc', b.flush oracle = .ok ⟨SpriteQueue.new, dc'⟩) ∨
       (∃ dc', b.flush oracle = .err ⟨b.queue, dc'⟩))) := by
  unfold SpriteBatch.flush
  by_cases hv : b.queue.vertices.isEmpty = true
  · exact .inl ⟨hv, by rw [if_pos hv]⟩
  · have hv' : b.queue.vertices.isEmpty = false := by
      cases h : b.queue.vertices.isEmpty
      · rfl
      · exact absurd h hv
    cases ht : b.queue.textures with
    | nil =>
        refine .inr (.inl ⟨hv', rfl, ?_⟩)
        rw [if_neg hv]
    | cons t0 rest =>
        refine .inr (.inr ⟨hv', by simp [ht], ?_⟩)
        rw [if_neg hv]
        rcases flushLoop_shape rest b.queue b.draw_calls oracle 0 t0 0 1 with
          ⟨dc', h⟩ | ⟨dc', h⟩
        · rw [clear_eq_new] at h
          exact .inl ⟨dc', h⟩
        · exact .inr ⟨dc', h⟩

/-- With an all-success target, `flush` of a queue holding at least one
quad issues one submission per maximal same-texture run (`numRuns` of the
id list) and clears the queue. -/
theorem flush_success (b : SpriteBatch) (hinv : b.queue.inv)
    (hne : b.queue.textures ≠ []) :
    b.flush successOracle =
      .ok ⟨SpriteQueue.new, b.draw_calls +
        numRuns (b.queue.textures.map Texture.id)⟩ := by
  have hlen : b.queue.vertices.length = 4 * b.queue.textures.length := hinv
  have hvne : ¬ b.queue.vertices.isEmpty = true := by
    cases hv : b.queue.vertices with
    | nil =>
        rw [hv] at hlen
        cases htl : b.queue.textures with
        | nil => exact absurd htl hne
        | cons a l => rw [htl] at hlen; simp at hlen
    | cons v vs => simp
  unfold SpriteBatch.flush
  rw [if_neg hvne]
  cases ht : b.queue.textures with
  | nil => exact absurd ht hne
  | cons t0 rest =>
      have h := flushLoop_success rest b.queue b.draw_calls 0 t0 0 1
      rw [clear_eq_new] at h
      rw [show numRuns ((t0 :: rest).map Texture.id) =
            idChanges t0.id (rest.map Texture.id) + 1 by simp [numRuns]]
      exact h

/-- Flush of an empty queue is a no-op success. -/
theorem flush_empty (b : SpriteBatch) (hinv : b.queue.inv)
    (hte : b.queue.textures = []) :
    b.flush successOracle = .ok b := by
  have hv : b.queue.vertices = [] := by
    have hlen : b.queue.vertices.length = 4 * b.queue.textures.length := hinv
    rw [hte] at hlen
    simpa using hlen
  unfold SpriteBatch.flush
  rw [if_pos (by rw [hv]; rfl)]

/-- A queue whose texture list is non-empty has, under the invariant, a
non-empty vertex list. -/
theorem vertices_not_isEmpty (q : SpriteQueue) (hinv : q.inv)
    (hne : q.textures ≠ []) : ¬ q.vertices.isEmpty = true := by
  have hlen : q.vertices.length = 4 * q.textures.length := hinv
  cases hv : q.vertices with
  | nil =>
      rw [hv] at hlen
      cases htl : q.textures with
      | nil => exact absurd htl hne
      | cons a l => rw [htl] at hlen; simp at hlen
  | cons v vs => simp

/-- `SpriteQueue::push` succeeds exactly below capacity, appending the
4 vertices and the texture handle. -/
theorem push_eq (q : SpriteQueue) (vs : List VertexData) (t : Texture)
    (q' : SpriteQueue) (h : q.push vs t = some q') :
    q.textures.length < BATCH_SIZE ∧
    q' = ⟨q.vertices ++ vs, q.textures ++ [t]⟩ := by
  unfold SpriteQueue.push at h
  by_cases hlt : q.textures.length < BATCH_SIZE
  · rw [if_pos hlt] at h
    injection h with h
    exact ⟨hlt, h.symm⟩
  · rw [if_neg hlt] at h
    cases h

/-- `draw` on a queue strictly below capacity simply appends the quad. -/
theorem draw_not_full (b : SpriteBatch) (oracle : Nat → Bool) (s : Sprite)
    (c sn : ℚ) (hlt : b.queue.len < BATCH_SIZE) :
    b.draw oracle s c sn =
      .ok ⟨⟨b.queue.vertices ++ s.get_vertex_data c sn,
            b.queue.textures ++ [s.texture_region.texture]⟩, b.draw_calls⟩ := by
  unfold SpriteBatch.draw
  rw [if_neg (by omega)]
  have hlt' : b.queue.textures.length < BATCH_SIZE := hlt
  simp [SpriteQueue.push, hlt']

/-- `draw` on a full queue with an all-success target flushes (issuing one
submission per run), then enqueues the quad into the fresh queue. -/
theorem draw_full_success (b : SpriteBatch) (s : Sprite) (c sn : ℚ)
    (hinv : b.queue.inv) (hfull : b.queue.len = BATCH_SIZE) :
    b.draw successOracle s c sn =
      .ok ⟨⟨s.get_vertex_data c sn, [s.texture_region.texture]⟩,
           b.draw_calls + numRuns (b.queue.textures.map Texture.id)⟩ := by
  unfold SpriteBatch.draw
  rw [if_pos hfull]
  have hne : b.queue.textures ≠ [] := by
    intro h
    have : b.queue.len = 0 := by unfold SpriteQueue.len; rw [h]; rfl
    rw [hfull] at this
    simp [BATCH_SIZE] at this
  rw [flush_success b hinv hne]
  simp [SpriteQueue.push, SpriteQueue.new, BATCH_SIZE]

/-- The two reachable outcomes of `draw` below-or-at capacity: an append
(after an implicit flush when full), or a propagated flush error with the
queue intact.  In particular `draw` never panics from these states. -/
theorem draw_cases (b : SpriteBatch) (oracle : Nat → Bool) (s : Sprite)
    (c sn : ℚ) (hinv : b.queue.inv) (hlen : b.queue.len ≤ BATCH_SIZE) :
    (b.queue.len < BATCH_SIZE ∧
      b.draw oracle s c sn = .ok ⟨⟨b.queue.vertices ++ s.get_vertex_data c sn,
        b.queue.textures ++ [s.texture_region.texture]⟩, b.draw_calls⟩) ∨
    (b.queue.len = BATCH_SIZE ∧
      ((∃ dc', b.draw oracle s c sn = .ok ⟨⟨s.get_vertex_data c sn,
          [s.texture_region.texture]⟩, dc'⟩) ∨
       (∃ dc', b.draw oracle s c sn = .err ⟨b.queue, dc'⟩))) := by
  by_cases hfull : b.queue.len = BATCH_SIZE
  · refine .inr ⟨hfull, ?_⟩
    have hne : b.queue.textures ≠ [] := by
      intro h
      have : b.queue.len = 0 := by unfold SpriteQueue.len; rw [h]; rfl
      rw [hfull] at this
      simp [BATCH_SIZE] at this
    unfold SpriteBatch.draw
    rw [if_pos hfull]
    rcases flush_shape b oracle with ⟨hv, heq⟩ | ⟨hv, ht, heq⟩ |
      ⟨hv, ht, ⟨dc', heq⟩ | ⟨dc', heq⟩⟩
    · exact absurd hv (vertices_not_isEmpty b.queue hinv hne)
    · exact absurd ht hne
    · rw [heq]
      refine .inl ⟨dc', ?_⟩
      simp [SpriteQueue.push, SpriteQueue.new, BATCH_SIZE]
    · rw [heq]
      exact .inr ⟨dc', rfl⟩
  · exact .inl ⟨by omega, draw_not_full b oracle s c sn (by omega)⟩

/-- Any non-panic `flush` outcome preserves the queue invariant. -/
theorem flush_inv (b : SpriteBatch) (oracle : Nat → Bool) (b' : SpriteBatch)
    (hinv : b.queue.inv)
    (h : b.flush oracle = .ok b' ∨ b.flush oracle = .err b') :
    b'.queue.inv := by
  rcases flush_shape b oracle with ⟨hv, heq⟩ | ⟨hv, ht, heq⟩ |
    ⟨hv, ht, ⟨dc', heq⟩ | ⟨dc', heq⟩⟩
  · rcases h with h | h <;> rw [heq] at h
    · cases h; exact hinv
    · cases h
  · rcases h with h | h <;> rw [heq] at h <;> cases h
  · rcases h with h | h <;> rw [heq] at h
    · cases h; rfl
    · cases h
  · rcases h with h | h <;> rw [heq] at h
    · cases h
    · cases h; exact hinv

/-- Claim C7: the queue invariant `vertices.len() = 4 × textures.len()`
holds for a fresh queue and is preserved by every operation: `push` of a
4-vertex quad, `clear`, opening a batch, `draw`, `flush` and `finish`. -/
theorem C7_queue_invariant :
    SpriteQueue.new.inv ∧
    (∀ (q : SpriteQueue) (vs : List VertexData) (t : Texture)
      (q' : SpriteQueue), q.inv → vs.length = 4 → q.push vs t = some q' →
      q'.inv) ∧
    (∀ q : SpriteQueue, q.clear.inv) ∧
    (∀ q : SpriteQueue, (SpriteBatch.new q).queue.inv) ∧
    (∀ (b : SpriteBatch) (oracle : Nat → Bool) (s : Sprite) (c sn : ℚ)
      (b' : SpriteBatch), b.queue.inv → b.queue.len ≤ BATCH_SIZE →
      (b.draw oracle s c sn = .ok b' ∨ b.draw oracle s c sn = .err b') →
      b'.queue.inv) ∧
    (∀ (b : SpriteBatch) (oracle : Nat → Bool) (b' : SpriteBatch),
      b.queue.inv →
      (b.flush oracle = .ok b' ∨ b.flush oracle = .err b') → b'.queue.inv) ∧
    (∀ (b : SpriteBatch) (oracle : Nat → Bool) (n : Nat) (b' : SpriteBatch),
      b.queue.inv →
      (b.finish oracle = .ok n b' ∨ b.finish oracle = .err b') →
      b'.queue.inv) := by
  refine ⟨rfl, ?_, fun q => rfl, fun q => rfl, ?_, flush_inv, ?_⟩
  · intro q vs t q' hinv hvs hp
    obtain ⟨hlt, rfl⟩ := push_eq q vs t q' hp
    show (q.vertices ++ vs).length = QUAD_VERTEX_SIZE * (q.textures ++ [t]).length
    have hq : q.vertices.length = QUAD_VERTEX_SIZE * q.textures.length := hinv
    simp [List.length_append, hq, hvs, QUAD_VERTEX_SIZE]
    ring
  · intro b oracle s c sn b' hinv hlen h
    rcases draw_cases b oracle s c sn hinv hlen with ⟨_, heq⟩ |
      ⟨_, ⟨dc', heq⟩ | ⟨dc', heq⟩⟩
    · rcases h with h | h <;> rw [heq] at h <;> cases h
      · show (b.queue.vertices ++ s.get_vertex_data c sn).length =
          QUAD_VERTEX_SIZE * (b.queue.textures ++ [s.texture_region.texture]).length
        have hq : b.queue.vertices.length =
            QUAD_VERTEX_SIZE * b.queue.textures.length := hinv
        simp [List.length_append, hq, get_vertex_data_length, QUAD_VERTEX_SIZE]
        ring
    · rcases h with h | h <;> rw [heq] at h <;> cases h
      · show (s.get_vertex_data c sn).length =
          QUAD_VERTEX_SIZE * ([s.texture_region.texture]).length
        simp [get_vertex_data_length, QUAD_VERTEX_SIZE]
    · rcases h with h | h <;> rw [heq] at h <;> cases h
      · exact hinv
  · intro b oracle n b' hinv h
    unfold SpriteBatch.finish at h
    cases hfl : b.flush oracle with
    | ok bf =>
        rw [hfl] at h
        rcases h with h | h <;> cases h
        exact flush_inv b oracle _ hinv (.inl hfl)
    | err bf =>
        rw [hfl] at h
        rcases h with h | h <;> cases h
        exact flush_inv b oracle _ hinv (.inr hfl)
    | panic =>
        rw [hfl] at h
        rcases h with h | h <;> cases h

/-- Witness for C7: pushing one quad into the fresh queue preserves the
invariant. -/
theorem C7_queue_invariant_witness :
    (SpriteQueue.mk ((spriteOf 0).get_vertex_data 1 0) [⟨0, (1, 1)⟩]).inv :=
  C7_queue_invariant.2.1 SpriteQueue.new ((spriteOf 0).get_vertex_data 1 0)
    ⟨0, (1, 1)⟩ ⟨(spriteOf 0).get_vertex_data 1 0, [⟨0, (1, 1)⟩]⟩ rfl
    (get_vertex_data_length (spriteOf 0) 1 0)
    (by unfold SpriteQueue.push
        rw [if_pos (by simp [SpriteQueue.new, BATCH_SIZE])]
        rfl)

/-- Claim C2: from any reachable batch state (queue at or below the
1024-quad capacity, invariant held), `draw` never hits the queue-full
assertion; on success the queue holds at most 1024 quads and the new
sprite's 4 vertices and texture handle have been appended exactly once —
onto the old queue when it was below capacity, or onto the freshly
flushed empty queue when it was full. -/
theorem C2_draw_capacity (b : SpriteBatch) (hinv : b.queue.inv)
    (hlen : b.queue.len ≤ BATCH_SIZE) (oracle : Nat → Bool) (s : Sprite)
    (c sn : ℚ) :
    b.draw oracle s c sn ≠ .panic ∧
    (∀ b', b.draw oracle s c sn = .ok b' →
      b'.queue.len ≤ BATCH_SIZE ∧
      ∃ pre : SpriteQueue,
        ((b.queue.len < BATCH_SIZE ∧ pre = b.queue ∧
          b'.draw_calls = b.draw_calls) ∨
         (b.queue.len = BATCH_SIZE ∧ pre = SpriteQueue.new)) ∧
        b'.queue.vertices = pre.vertices ++ s.get_vertex_data c sn ∧
        b'.queue.textures = pre.textures ++ [s.texture_region.texture]) := by
  rcases draw_cases b oracle s c sn hinv hlen with ⟨hlt, heq⟩ |
    ⟨hfull, ⟨dc', heq⟩ | ⟨dc', heq⟩⟩
  · constructor
    · rw [heq]; intro h; cases h
    · intro b' h
      rw [heq] at h
      cases h
      constructor
      · show (b.queue.textures ++ [s.texture_region.texture]).length ≤ BATCH_SIZE
        have : b.queue.textures.length < BATCH_SIZE := hlt
        simp [List.length_append]
        omega
      · exact ⟨b.queue, .inl ⟨hlt, rfl, rfl⟩, rfl, rfl⟩
  · constructor
    · rw [heq]; intro h; cases h
    · intro b' h
      rw [heq] at h
      cases h
      constructor
      · show ([s.texture_region.texture]).length ≤ BATCH_SIZE
        simp [BATCH_SIZE]
      · exact ⟨SpriteQueue.new, .inr ⟨hfull, rfl⟩, rfl, rfl⟩
  · constructor
    · rw [heq]; intro h; cases h
    · intro b' h
      rw [heq] at h
      cases h

/-- Witness for C2: a draw into a fresh batch does not panic. -/
theorem C2_draw_capacity_witness :
    (SpriteBatch.mk SpriteQueue.new 0).draw successOracle (spriteOf 0) 1 0 ≠
      BatchOut.panic :=
  (C2_draw_capacity ⟨SpriteQueue.new, 0⟩ rfl (by decide) successOracle
    (spriteOf 0) 1 0).1

/-- Claim C9: `flush` is not atomic on error — with a target whose
`k`-th submission fails (`k` within the run count), the error propagates,
the queue keeps its full contents, and `draw_calls` counts exactly the
`k` submissions that succeeded before the failure; a subsequent flush of
the same state re-submits every run, including those that had already
succeeded. -/
theorem C9_flush_not_atomic (b : SpriteBatch) (hinv : b.queue.inv) (k : Nat)
    (hk : k < numRuns (b.queue.textures.map Texture.id)) :
    b.flush (fun i => decide (i < k)) = .err ⟨b.queue, b.draw_calls + k⟩ ∧
    (∀ dc : Nat, (SpriteBatch.mk b.queue dc).flush successOracle =
      .ok ⟨SpriteQueue.new, dc + numRuns (b.queue.textures.map Texture.id)⟩) := by
  have hne : b.queue.textures ≠ [] := by
    intro h
    rw [h] at hk
    simp [numRuns] at hk
  constructor
  · unfold SpriteBatch.flush
    rw [if_neg (vertices_not_isEmpty b.queue hinv hne)]
    cases ht : b.queue.textures with
    | nil => exact absurd ht hne
    | cons t0 rest =>
        have hkch : k ≤ idChanges t0.id (rest.map Texture.id) := by
          rw [ht] at hk
          simp only [List.map_cons, numRuns] at hk
          omega
        exact flushLoop_failAt k rest b.queue b.draw_calls 0 t0 0 1
          (Nat.zero_le k) (by simpa using hkch)
  · intro dc
    exact flush_success ⟨b.queue, dc⟩ hinv hne

/-- Witness for C9 at a two-quad, two-run queue with the second
submission failing. -/
theorem C9_flush_not_atomic_witness :
    (SpriteBatch.mk demoQueue 0).flush (fun i => decide (i < 1)) =
      .err ⟨demoQueue, 0 + 1⟩ :=
  (C9_flush_not_atomic ⟨demoQueue, 0⟩ (by decide) 1 (by decide)).1

/-- `chunksOf` on the empty list. -/
theorem chunksOf_nil {α : Type} (c : Nat) : chunksOf c ([] : List α) = [] := by
  unfold chunksOf
  rfl

/-- `chunksOf` unfolded one step. -/
theorem chunksOf_cons {α : Type} (c : Nat) (a : α) (l : List α) :
    chunksOf c (a :: l) =
      (a :: l.take (c - 1)) :: chunksOf c (l.drop (c - 1)) := by
  conv_lhs => unfold chunksOf

/-- A non-empty list no longer than the chunk size is a single chunk. -/
theorem chunksOf_small {α : Type} (c : Nat) (l : List α) (hne : l ≠ [])
    (hlen : l.length ≤ c) : chunksOf c l = [l] := by
  cases l with
  | nil => exact absurd rfl hne
  | cons a l' =>
      rw [chunksOf_cons]
      have hl' : l'.length ≤ c - 1 := by simp at hlen; omega
      rw [List.take_of_length_le hl', List.drop_eq_nil_of_le hl', chunksOf_nil]

/-- Chunking splits off an exact-size prefix. -/
theorem chunksOf_append {α : Type} (c : Nat) (hc : 0 < c) (l1 l2 : List α)
    (hlen : l1.length = c) :
    chunksOf c (l1 ++ l2) = l1 :: chunksOf c l2 := by
  cases l1 with
  | nil => rw [List.length_nil] at hlen; omega
  | cons a l' =>
      rw [List.cons_append, chunksOf_cons]
      have hl' : l'.length = c - 1 := by simp at hlen; omega
      rw [show (l' ++ l2).take (c - 1) = l' by rw [← hl']; exact List.take_left l' l2]
      rw [show (l' ++ l2).drop (c - 1) = l2 by rw [← hl']; exact List.drop_left l' l2]

/-- A finished batch session with no draws is just `finish`. -/
theorem drawAllFinish_nil (b : SpriteBatch) (oracle : Nat → Bool) :
    b.drawAllFinish oracle [] = b.finish oracle := rfl

/-- One successful `draw` step of a batch session. -/
theorem drawAllFinish_cons (b : SpriteBatch) (oracle : Nat → Bool)
    (s : Sprite) (c sn : ℚ) (rest : List (Sprite × ℚ × ℚ)) (b' : SpriteBatch)
    (h : b.draw oracle s c sn = .ok b') :
    b.drawAllFinish oracle ((s, c, sn) :: rest) =
      b'.drawAllFinish oracle rest := by
  unfold SpriteBatch.drawAllFinish
  have hd : b.drawAll oracle ((s, c, sn) :: rest) = b'.drawAll oracle rest := by
    simp only [SpriteBatch.drawAll]
    rw [h]
  rw [hd]

/-- The batching algorithm, solved: running a batch session from any
reachable state with an all-success target returns the accumulated count
plus one submission per maximal same-texture run of each 1024-quad
chunk of the (carried-over ++ newly-drawn) texture sequence. -/
theorem drawAllFinish_success (l : List (Sprite × ℚ × ℚ)) :
    ∀ (q : SpriteQueue) (dc : Nat), q.inv → q.len ≤ BATCH_SIZE →
    ∃ bf : SpriteBatch,
      SpriteBatch.drawAllFinish ⟨q, dc⟩ successOracle l =
        .ok (dc + ((chunksOf BATCH_SIZE
          ((q.textures ++ l.map fun p => p.1.texture_region.texture).map
            Texture.id)).map numRuns).sum) bf := by
  induction l with
  | nil =>
      intro q dc hinv hlen
      rw [drawAllFinish_nil]
      by_cases hte : q.textures = []
      · refine ⟨⟨q, dc⟩, ?_⟩
        unfold SpriteBatch.finish
        rw [flush_empty ⟨q, dc⟩ hinv hte]
        rw [hte]
        simp [chunksOf_nil]
      · refine ⟨⟨SpriteQueue.new,
          dc + numRuns (q.textures.map Texture.id)⟩, ?_⟩
        unfold SpriteBatch.finish
        rw [flush_success ⟨q, dc⟩ hinv hte]
        show FinishOut.ok (dc + numRuns (q.textures.map Texture.id)) _ = _
        rw [show (q.textures ++ ([] : List (Sprite × ℚ × ℚ)).map (fun p =>
              p.1.texture_region.texture)) = q.textures from by simp]
        rw [chunksOf_small BATCH_SIZE (q.textures.map Texture.id)
          (by intro hmap; exact hte (by simpa using hmap))
          (by simpa using hlen)]
        simp
  | cons p rest ih =>
      intro q dc hinv hlen
      obtain ⟨s, c, sn⟩ := p
      by_cases hfull : q.len = BATCH_SIZE
      · have hfull' : q.textures.length = BATCH_SIZE := hfull
        have hd := draw_full_success ⟨q, dc⟩ s c sn hinv hfull
        rw [drawAllFinish_cons _ _ _ _ _ rest _ hd]
        have hinv' : (SpriteQueue.mk (s.get_vertex_data c sn)
            [s.texture_region.texture]).inv := by
          show (s.get_vertex_data c sn).length = QUAD_VERTEX_SIZE * _
          simp [get_vertex_data_length, QUAD_VERTEX_SIZE]
        have hlen' : (SpriteQueue.mk (s.get_vertex_data c sn)
            [s.texture_region.texture]).len ≤ BATCH_SIZE := by
          simp [SpriteQueue.len, BATCH_SIZE]
        obtain ⟨bf, hbf⟩ := ih (SpriteQueue.mk (s.get_vertex_data c sn)
          [s.texture_region.texture]) (dc + numRuns (q.textures.map Texture.id))
          hinv' hlen'
        refine ⟨bf, ?_⟩
        rw [hbf]
        have hsplit : chunksOf BATCH_SIZE
            ((q.textures ++ (((s, c, sn) :: rest).map fun p =>
              p.1.texture_region.texture)).map Texture.id) =
            (q.textures.map Texture.id) ::
              chunksOf BATCH_SIZE
                ((([s.texture_region.texture] ++ rest.map fun p =>
                  p.1.texture_region.texture)).map Texture.id) := by
          rw [List.map_append, chunksOf_append BATCH_SIZE (by simp [BATCH_SIZE])
            _ _ (by rw [List.length_map]; exact hfull')]
          rfl
        rw [hsplit]
        simp only [List.map_cons, List.sum_cons]
        exact congrArg (fun n => FinishOut.ok n bf) (by omega)
      · have hlt : q.len < BATCH_SIZE := by omega
        have hd := draw_not_full ⟨q, dc⟩ successOracle s c sn hlt
        rw [drawAllFinish_cons _ _ _ _ _ rest _ hd]
        have hinv' : (SpriteQueue.mk
            (q.vertices ++ s.get_vertex_data c sn)
            (q.textures ++ [s.texture_region.texture])).inv := by
          show (q.vertices ++ s.get_vertex_data c sn).length =
            QUAD_VERTEX_SIZE *
              (q.textures ++ [s.texture_region.texture]).length
          have hq : q.vertices.length = QUAD_VERTEX_SIZE * q.textures.length :=
            hinv
          simp [List.length_append, hq, get_vertex_data_length,
            QUAD_VERTEX_SIZE]
          ring
        have hlen' : (SpriteQueue.mk
            (q.vertices ++ s.get_vertex_data c sn)
            (q.textures ++ [s.texture_region.texture])).len ≤ BATCH_SIZE := by
          show (q.textures ++ [s.texture_region.texture]).length ≤ BATCH_SIZE
          have : q.textures.length < BATCH_SIZE := hlt
          simp [List.length_append]
          omega
        obtain ⟨bf, hbf⟩ := ih (SpriteQueue.mk
          (q.vertices ++ s.get_vertex_data c sn)
          (q.textures ++ [s.texture_region.texture])) dc hinv' hlen'
        refine ⟨bf, ?_⟩
        rw [hbf]
        rw [List.append_assoc, List.singleton_append]
        rfl

/-- Claim C1: a whole batch session with an all-success target — begin,
draw each sprite, finish — returns exactly the total number of maximal
same-id texture runs summed over the 1024-quad chunks flushed
(automatically and finally); each non-empty flush issues exactly one
submission per run, and a batch finished with no draws returns 0. -/
theorem C1_finish_counts_runs (q0 : SpriteQueue) (l : List (Sprite × ℚ × ℚ)) :
    (∃ bf : SpriteBatch, SpriteBatch.run q0 successOracle l =
      .ok (((chunksOf BATCH_SIZE
        ((l.map fun p => p.1.texture_region.texture).map Texture.id)).map
        numRuns).sum) bf) ∧
    (∀ b : SpriteBatch, b.queue.inv → b.queue.textures ≠ [] →
      b.flush successOracle =
        .ok ⟨SpriteQueue.new, b.draw_calls +
          numRuns (b.queue.textures.map Texture.id)⟩) ∧
    (∃ bf : SpriteBatch, SpriteBatch.run q0 successOracle [] = .ok 0 bf) := by
  have hrun : ∀ (m : List (Sprite × ℚ × ℚ)),
      SpriteBatch.run q0 successOracle m =
        SpriteBatch.drawAllFinish ⟨SpriteQueue.new, 0⟩ successOracle m :=
    fun m => rfl
  refine ⟨?_, fun b hi hn => flush_success b hi hn, ?_⟩
  · obtain ⟨bf, h⟩ := drawAllFinish_success l SpriteQueue.new 0 rfl
      (by decide)
    refine ⟨bf, ?_⟩
    rw [hrun l, h]
    simp [SpriteQueue.new]
  · obtain ⟨bf, h⟩ := drawAllFinish_success [] SpriteQueue.new 0 rfl
      (by decide)
    refine ⟨bf, ?_⟩
    rw [hrun [], h]
    simp [SpriteQueue.new, chunksOf_nil]

/-- Witness for C1: four sprites over textures `0, 0, 1, 0` yield 3
submissions (3 maximal runs). -/
theorem C1_finish_counts_runs_witness :
    ∃ bf : SpriteBatch, SpriteBatch.run SpriteQueue.new successOracle
      [(spriteOf 0, 1, 0), (spriteOf 0, 1, 0), (spriteOf 1, 1, 0),
       (spriteOf 0, 1, 0)] = .ok 3 bf := by
  obtain ⟨bf, h⟩ := (C1_finish_counts_runs SpriteQueue.new
    [(spriteOf 0, 1, 0), (spriteOf 0, 1, 0), (spriteOf 1, 1, 0),
     (spriteOf 0, 1, 0)]).1
  refine ⟨bf, ?_⟩
  rw [h,
    show ((([(spriteOf 0, (1 : ℚ), (0 : ℚ)), (spriteOf 0, 1, 0),
      (spriteOf 1, 1, 0), (spriteOf 0, 1, 0)].map fun p =>
        p.1.texture_region.texture)).map Texture.id) = [0, 0, 1, 0] from rfl,
    chunksOf_small BATCH_SIZE [0, 0, 1, 0] (by simp) (by simp [BATCH_SIZE]),
    show (([[0, 0, 1, 0]] : List (List Nat)).map numRuns).sum = 3 from by
      decide]

/-- Counterexample for C4 as stated: for the default sprite over a 1×1
texture (no flips, no rotation), output vertex 2 is the transformed
bottom-RIGHT corner `(1/2, -1/2)` carrying the bottom-right UV `(1, 0)` —
not the claimed bottom-left position `(-1/2, -1/2)` with the bottom-left
UV `(0, 0)`. -/
theorem C4_vertex2_not_bottom_left :
    (unitSprite.get_vertex_data 1 0)[2]? =
      some ⟨(1/2, -1/2), (1, 0), (1, 1, 1, 1)⟩ ∧
    ¬ ((unitSprite.get_vertex_data 1 0)[2]? =
      some ⟨(-1/2, -1/2), (0, 0), (1, 1, 1, 1)⟩) := by
  have h : (unitSprite.get_vertex_data 1 0)[2]? =
      some ⟨(1/2, -1/2), (1, 0), (1, 1, 1, 1)⟩ := by
    simp only [Sprite.get_vertex_data, Sprite.model, unitSprite,
      Sprite.from_texture_region, TextureRegion.new, unitTexture,
      TextureRegion.texture_coordinates, Affine2.comp, Affine2.apply,
      Affine2.identity, Affine2.translation2d, Affine2.scaling2d,
      Affine2.rotation2d]
    norm_num
  refine ⟨h, ?_⟩
  rw [h]
  simp only [Option.some.injEq, VertexData.mk.injEq, Prod.mk.injEq]
  norm_num

/-- Claim C4 amended: for every sprite with `flip_x = flip_y = false`,
`get_vertex_data` returns the 4 vertices in the order top-left, top-right,
bottom-RIGHT, bottom-left of the transformed unit quad (the images of the
unit corners (0,1), (1,1), (1,0), (0,0) under the model transform), and
each vertex carries the UV of its own geometric corner from
`texture_coordinates()` — vertex 2 the bottom-right UV (index 3), vertex 3
the bottom-left UV (index 2). -/
theorem C4_vertex_order_amended (s : Sprite) (cosr sinr : ℚ)
    (hx : s.flip_x = false) (hy : s.flip_y = false) :
    s.get_vertex_data cosr sinr =
      [ { pos := (s.model cosr sinr).apply (0, 1),
          tex_coords := s.texture_region.texture_coordinates[0]!,
          color := s.color },
        { pos := (s.model cosr sinr).apply (1, 1),
          tex_coords := s.texture_region.texture_coordinates[1]!,
          color := s.color },
        { pos := (s.model cosr sinr).apply (1, 0),
          tex_coords := s.texture_region.texture_coordinates[3]!,
          color := s.color },
        { pos := (s.model cosr sinr).apply (0, 0),
          tex_coords := s.texture_region.texture_coordinates[2]!,
          color := s.color } ] := by
  simp only [Sprite.get_vertex_data, hx, hy]

/-- Witness for the amended C4 at the concrete default sprite. -/
theorem C4_vertex_order_witness :
    unitSprite.get_vertex_data 1 0 =
      [ { pos := (unitSprite.model 1 0).apply (0, 1),
          tex_coords := unitSprite.texture_region.texture_coordinates[0]!,
          color := unitSprite.color },
        { pos := (unitSprite.model 1 0).apply (1, 1),
          tex_coords := unitSprite.texture_region.texture_coordinates[1]!,
          color := unitSprite.color },
        { pos := (unitSprite.model 1 0).apply (1, 0),
          tex_coords := unitSprite.texture_region.texture_coordinates[3]!,
          color := unitSprite.color },
        { pos := (unitSprite.model 1 0).apply (0, 0),
          tex_coords := unitSprite.texture_region.texture_coordinates[2]!,
          color := unitSprite.color } ] :=
  C4_vertex_order_amended unitSprite 1 0 rfl rfl

/-- Witness for C10 at `frame_duration = 1`, `Loop` mode, `run_time = 5`. -/
theorem C10_empty_frames_witness :
    ∃ a, Animation.new (1 : ℚ) [] = some a ∧
      ({ a with playMode := PlayMode.Loop }).current_key_frame 5 = none :=
  C10_empty_frames_unchecked 1 (by norm_num) PlayMode.Loop 5

end Game
